import Mathlib

/-!
Verification of the carpark status display (`src/carpark_display.py`).

The program has two classes. `WindowedDisplay` owns a tkinter window with
one (label, value) pair of `tk.Label` widgets per display field, stored in a
dictionary `gui_elements` keyed `lbl_field_i` / `lbl_value_i` in insertion
order.  `CarPark_Display` constructs a `WindowedDisplay` for the carpark
"Moondalup", starts a daemon thread running `check_updates` (a skeleton MQTT
subscriber), and blocks in the window's main loop.

We embed the observable state of the display (the texts of the label and
value widgets, in row order) and the two operations that touch it:
construction (`WindowedDisplay.__init__`) and `WindowedDisplay.update`.
The background task `check_updates` is embedded as the trace of broker
events it emits, parameterised by the number of iterations of its
`while True` loop.  The module bootstrap is embedded as a trace of
process-level events.
-/

namespace CarPark

/-- Constant `WindowedDisplay.DISPLAY_INIT = '– – –'`: placeholder text
every value label is initialised with. -/
def DISPLAY_INIT : String := "– – –"

/-- Constant `WindowedDisplay.SEP = ':'`: the separator appended to a field
name to form the text of its label widget. -/
def SEP : Char := ':'

/-- Python `s.rstrip(':')`: remove every trailing `':'` character. -/
def rstripSep (s : String) : String :=
  String.mk ((s.data.reverse.dropWhile (fun c => c = SEP)).reverse)

/-- True exactly when the string's last character is the separator `':'`.
Used only in theorem hypotheses, to delimit when `rstripSep` inverts the
label construction `field + SEP`. -/
def endsWithSep (s : String) : Bool :=
  match s.data.reverse with
  | [] => false
  | c :: _ => c = SEP

/-- Lookup in a Python dictionary, modelled as an association list with
first-match lookup (faithful when the key list is duplicate-free, which is
always the case for a Python `dict`). `none` models a `KeyError`. -/
def dictLookup (d : List (String × String)) (k : String) : Option String :=
  match d with
  | [] => none
  | (k', v) :: rest => if k' = k then some v else dictLookup rest k

/-- The keys of an update payload (`updated_values.keys()`). -/
def payloadKeys (p : List (String × String)) : List String :=
  p.map Prod.fst

/-- Observable state of a `WindowedDisplay`: the window title and, in row
order, the texts of the `lbl_field_i` and `lbl_value_i` widgets. -/
structure WindowedDisplay where
  title : String
  labels : List String
  values : List String
  deriving DecidableEq

/-- Constructor `WindowedDisplay.__init__(title, display_fields)`: sets the window title
to `f'{title}: Parking'` and, for each field in order, creates a label
widget with text `field + SEP` and a value widget with text `DISPLAY_INIT`.
No name-dependent operation can fail, so construction is total: duplicate
field names simply produce one row per occurrence. -/
def WindowedDisplay.init (title : String) (fields : List String) : WindowedDisplay :=
  { title := title ++ ": Parking"
  , labels := fields.map (fun f => f ++ String.mk [SEP])
  , values := fields.map (fun _ => DISPLAY_INIT) }

/-- The loop body of `WindowedDisplay.update`: iterate over the
`lbl_field_i` keys of `gui_elements` in insertion order (row order); for row
`i`, look up `updated_values[label_text.rstrip(SEP)]` and assign it to the
value widget.  A failed lookup raises `KeyError` before the assignment of
that row, aborting the loop: rows already processed keep their new values,
the current and later rows keep their old ones.  Returns the value texts
after the call and `true` iff a `KeyError` was raised. -/
def updateLoop (payload : List (String × String)) :
    List String → List String → List String × Bool
  | [], vs => (vs, false)
  | _ :: _, [] => ([], false)
  | l :: ls, v :: vs =>
    match dictLookup payload ( rstripSep l) with
    | none => (v :: vs, true)
    | some newv =>
      ((newv :: (updateLoop payload ls vs).1), (updateLoop payload ls vs).2)

/-- Method `WindowedDisplay.update(updated_values)`: run the loop over the rows,
then `self.window.update()` (a repaint, which does not change any text and
is only reached when no `KeyError` was raised).  The `Bool` is `true` iff
the call raised `KeyError`. -/
def WindowedDisplay.update (d : WindowedDisplay) (payload : List (String × String)) :
    WindowedDisplay × Bool :=
  let r := updateLoop payload d.labels d.values
  ({ d with values := r.1 }, r.2)

/-- Events emitted by the background task `check_updates` and observable at
the broker or display boundary. -/
inductive BrokerEvent where
  | connect (host : String) (port : Nat) (keepAlive : Nat) (clientName : String)
  | subscr (topic : String)
  | updateDisplay (payload : List (String × String))
  deriving DecidableEq

/-- One iteration of the `while True` loop of `CarPark_Display.check_updates`:
construct `paho.Client('car_park_sensor')`, `connect('localhost', 1883, 300)`,
`subscribe('car_park/data')`, define a no-op callback, and fall through to
the next iteration.  The display-updating code is commented out, so no
`updateDisplay` event is emitted. -/
def checkUpdatesIteration : List BrokerEvent :=
  [ BrokerEvent.connect "localhost" 1883 300 "car_park_sensor"
  , BrokerEvent.subscr "car_park/data" ]

/-- The trace of `check_updates` after `n` iterations of its unbounded
`while True` loop. -/
def checkUpdatesTrace : Nat → List BrokerEvent
  | 0 => []
  | n + 1 => checkUpdatesIteration ++ checkUpdatesTrace n

/-- The body of `on_message_callback(client, userdata, message)` is `pass`:
it performs no work and leaves the display unchanged. -/
def onMessageCallback (_message : String) (d : WindowedDisplay) : WindowedDisplay :=
  d

def isConnectEvent : BrokerEvent → Bool
  | BrokerEvent.connect _ _ _ _ => true
  | _ => false

def isSubscrEvent : BrokerEvent → Bool
  | BrokerEvent.subscr _ => true
  | _ => false

def isUpdateDisplayEvent : BrokerEvent → Bool
  | BrokerEvent.updateDisplay _ => true
  | _ => false

/-- Process-level events of the module bootstrap. -/
inductive BootEvent where
  | constructDisplay (title : String) (fields : List String)
  | startDaemonThread
  | showWindow
  deriving DecidableEq

/-- Class attribute `CarPark_Display.fields`. -/
def carParkFields : List String := ["Available bays", "Temperature", "At"]

/-- Constructor `CarPark_Display.__init__` followed by the module-level statement
`CarPark_Display()`: construct one `WindowedDisplay('Moondalup', fields)`,
start the `check_updates` daemon thread, and block in `window.show()`. -/
def bootstrapTrace : List BootEvent :=
  [ BootEvent.constructDisplay "Moondalup" carParkFields
  , BootEvent.startDaemonThread
  , BootEvent.showWindow ]

def isConstructEvent : BootEvent → Bool
  | BootEvent.constructDisplay _ _ => true
  | _ => false

/-! ### Helper lemmas -/

lemma mk_append (l m : List Char) : String.mk l ++ String.mk m = String.mk (l ++ m) :=
  rfl

/-- Stripping the trailing separator recovers the field name, provided the
name itself does not already end with the separator. -/
lemma rstripSep_append_sep (f : String) (h : endsWithSep f = false) :
    rstripSep (f ++ String.mk [SEP]) = f := by
  obtain ⟨l⟩ := f
  rw [mk_append]
  unfold rstripSep
  have h1 : ((l ++ [SEP] : List Char)).reverse = SEP :: l.reverse := by
    rw [List.reverse_append]
    rfl
  rw [h1, List.dropWhile_cons_of_pos (by decide)]
  cases hrev : l.reverse with
  | nil =>
    have hl : l = [] := by simpa using congrArg List.reverse hrev
    simp [hl]
  | cons c t =>
    have hc : ¬ ((fun x => decide (x = SEP)) c = true) := by
      unfold endsWithSep at h
      rw [hrev] at h
      simpa using h
    have h3 : List.dropWhile (fun x => decide (x = SEP)) (c :: t) = c :: t :=
      List.dropWhile_cons_of_neg hc
    rw [h3, hrev.symm, List.reverse_reverse]

/-- A dictionary lookup succeeds exactly when the key is present. -/
lemma dictLookup_ne_none (p : List (String × String)) (k : String) :
    dictLookup p k ≠ none ↔ k ∈ payloadKeys p := by
  induction p with
  | nil => simp [dictLookup, payloadKeys]
  | cons kv p ih =>
    obtain ⟨k', v⟩ := kv
    by_cases h : k' = k
    · simp [dictLookup, payloadKeys, h]
    · simp only [dictLookup, payloadKeys, List.map_cons, List.mem_cons]
      rw [if_neg h]
      simp only [payloadKeys] at ih
      rw [ih]
      constructor
      · exact fun hk => Or.inr hk
      · rintro (hk | hk)
        · exact absurd hk.symm h
        · exact hk

/-- Dictionary lookup is invariant under permutation of the entry list when
the keys are duplicate-free (as they are for a Python `dict`). -/
lemma dictLookup_perm (k : String) :
    ∀ {p₁ p₂ : List (String × String)}, p₁.Perm p₂ →
      (payloadKeys p₂).Nodup → dictLookup p₁ k = dictLookup p₂ k := by
  intro p₁ p₂ hperm
  induction hperm with
  | nil => intro _; rfl
  | cons x h ih =>
    intro hnodup
    obtain ⟨k', v⟩ := x
    simp only [payloadKeys, List.map_cons, List.nodup_cons] at hnodup
    by_cases hk : k' = k
    · simp [dictLookup, hk]
    · simp only [dictLookup, if_neg hk]
      exact ih (by simpa [payloadKeys] using hnodup.2)
  | swap x y l =>
    intro hnodup
    obtain ⟨k₁, v₁⟩ := x
    obtain ⟨k₂, v₂⟩ := y
    simp only [payloadKeys, List.map_cons, List.nodup_cons, List.mem_cons] at hnodup
    have hne : k₁ ≠ k₂ := fun heq => hnodup.1 (Or.inl heq)
    by_cases h₁ : k₁ = k
    · by_cases h₂ : k₂ = k
      · exact absurd (h₁.trans h₂.symm) hne
      · simp [dictLookup, h₁, h₂]
    · by_cases h₂ : k₂ = k
      · simp [dictLookup, h₁, h₂]
      · simp [dictLookup, h₁, h₂]
  | trans h₁ h₂ ih₁ ih₂ =>
    intro hnodup
    have hmid : (payloadKeys _).Nodup :=
      ((h₂.map Prod.fst).nodup_iff).mpr (by simpa [payloadKeys] using hnodup)
    exact (ih₁ (by simpa [payloadKeys] using hmid)).trans (ih₂ hnodup)

/-- The update loop preserves the number of rows when labels and values have
the same length (true of every reachable display state). -/
lemma updateLoop_length (payload : List (String × String)) :
    ∀ (ls vs : List String), ls.length = vs.length →
      (updateLoop payload ls vs).1.length = vs.length := by
  intro ls
  induction ls with
  | nil => intro vs _; rfl
  | cons l ls ih =>
    intro vs h
    cases vs with
    | nil => simp at h
    | cons v vs =>
      simp only [updateLoop]
      cases hl : dictLookup payload ( rstripSep l) with
      | none => rfl
      | some newv =>
        simp only [List.length_cons]
        rw [ih vs (by simpa using h)]

/-- When every label's lookup succeeds, the update loop rewrites every value
to the payload's entry for the stripped label, and raises no `KeyError`. -/
lemma updateLoop_all_found (payload : List (String × String)) :
    ∀ (ls vs : List String), ls.length = vs.length →
      (∀ l ∈ ls, dictLookup payload ( rstripSep l) ≠ none) →
      updateLoop payload ls vs =
        (ls.map (fun l => (dictLookup payload ( rstripSep l)).getD ""), false) := by
  intro ls
  induction ls with
  | nil =>
    intro vs h _
    have : vs = [] := by
      cases vs with
      | nil => rfl
      | cons v vs => simp at h
    simp [this, updateLoop]
  | cons l ls ih =>
    intro vs h hfound
    cases vs with
    | nil => simp at h
    | cons v vs =>
      obtain ⟨w, hw⟩ := Option.ne_none_iff_exists'.mp (hfound l (List.mem_cons_self l ls))
      simp only [updateLoop, hw]
      rw [ih vs (by simpa using h) (fun x hx => hfound x (List.mem_cons_of_mem l hx))]
      simp [hw]

/-- Running the update loop twice with the same payload produces the same
values and the same error outcome as running it once. -/
lemma updateLoop_idem (payload : List (String × String)) :
    ∀ (ls vs : List String),
      updateLoop payload ls (updateLoop payload ls vs).1 = updateLoop payload ls vs := by
  intro ls
  induction ls with
  | nil => intro vs; rfl
  | cons l ls ih =>
    intro vs
    cases vs with
    | nil => rfl
    | cons v vs =>
      cases hl : dictLookup payload ( rstripSep l) with
      | none => simp [updateLoop, hl]
      | some newv => simp [updateLoop, hl, ih vs]

/-- The update loop only consults the payload through `dictLookup`, so two
payloads with identical lookup behaviour produce identical results. -/
lemma updateLoop_congr (p₁ p₂ : List (String × String))
    (h : ∀ k, dictLookup p₁ k = dictLookup p₂ k) :
    ∀ (ls vs : List String), updateLoop p₁ ls vs = updateLoop p₂ ls vs := by
  intro ls
  induction ls with
  | nil => intro vs; rfl
  | cons l ls ih =>
    intro vs
    cases vs with
    | nil => rfl
    | cons v vs => simp only [updateLoop, h, ih vs]

/-- When the labels split as `pre ++ bad :: rest` with every lookup in `pre`
succeeding and the lookup for `bad` failing, the loop updates exactly the
rows of `pre`, raises `KeyError` at `bad`, and leaves the remaining rows at
their old values: the partial-mutation behaviour of `update`. -/
lemma updateLoop_partial (payload : List (String × String)) (bad : String)
    (rest : List String) (hbad : dictLookup payload ( rstripSep bad) = none) :
    ∀ (pre vs : List String), pre.length < vs.length →
      (∀ l ∈ pre, dictLookup payload ( rstripSep l) ≠ none) →
      updateLoop payload (pre ++ bad :: rest) vs =
        (pre.map (fun l => (dictLookup payload ( rstripSep l)).getD "") ++
          vs.drop pre.length, true) := by
  intro pre
  induction pre with
  | nil =>
    intro vs hlen _
    cases vs with
    | nil => simp at hlen
    | cons v vs => simp [updateLoop, hbad]
  | cons l pre ih =>
    intro vs hlen hpre
    cases vs with
    | nil => simp at hlen
    | cons v vs =>
      obtain ⟨w, hw⟩ := Option.ne_none_iff_exists'.mp (hpre l (List.mem_cons_self l pre))
      simp only [List.cons_append, updateLoop, hw, List.append_eq]
      rw [ih vs (by simpa using hlen) (fun x hx => hpre x (List.mem_cons_of_mem l hx))]
      simp [hw]

/-! ### Claim theorems -/

/-- C3: for every valid ordered field-name list, immediately after
construction and before any update, the displayed value of every field is
the placeholder string `– – –`. -/
theorem init_values_placeholder (title : String) (fields : List String) (i : Nat)
    (h : i < fields.length) :
    (WindowedDisplay.init title fields).values[i]? = some DISPLAY_INIT := by
  simp [WindowedDisplay.init, List.getElem?_replicate, h]

/-- Witness for C3: the display of the bootstrap configuration shows the
placeholder for its second field right after construction. -/
theorem init_values_placeholder_witness :
    1 < carParkFields.length ∧
    (WindowedDisplay.init "Moondalup" carParkFields).values[1]? = some DISPLAY_INIT :=
  ⟨by decide, init_values_placeholder "Moondalup" carParkFields 1 (by decide)⟩

/-- C4 counterexample: constructing a display with the duplicate field list
`["A", "A"]` does not fail; it completes normally, producing one fully
initialised row per occurrence.  Row identity at construction time is the
index `i` of `lbl_field_i`, not the field name, so nothing in
`WindowedDisplay.__init__` can detect or reject a duplicate. -/
theorem init_duplicate_fields_no_failure :
    WindowedDisplay.init "T" ["A", "A"] =
      { title := "T: Parking", labels := ["A:", "A:"],
        values := [DISPLAY_INIT, DISPLAY_INIT] } := by
  decide

/-- C4 (amended): construction with a duplicate field name does not fail;
it succeeds, creating one row per occurrence (so two rows share the same
label text), every row initialised to the placeholder. -/
theorem init_duplicate_fields_succeeds (title : String) (fields : List String)
    (_hdup : ¬ fields.Nodup) :
    (WindowedDisplay.init title fields).values.length = fields.length ∧
    (WindowedDisplay.init title fields).labels.length = fields.length ∧
    ∀ v ∈ (WindowedDisplay.init title fields).values, v = DISPLAY_INIT := by
  refine ⟨by simp [WindowedDisplay.init], by simp [WindowedDisplay.init], ?_⟩
  intro v hv
  simp only [WindowedDisplay.init] at hv
  obtain ⟨x, _, hxv⟩ := List.mem_map.mp hv
  exact hxv.symm

/-- Witness for C4 (amended): the duplicate list `["A", "A"]` yields a
two-row display, both rows at the placeholder. -/
theorem init_duplicate_fields_succeeds_witness :
    ¬ (["A", "A"] : List String).Nodup ∧
    ((WindowedDisplay.init "T" ["A", "A"]).values.length = (["A", "A"] : List String).length ∧
     (WindowedDisplay.init "T" ["A", "A"]).labels.length = (["A", "A"] : List String).length ∧
     ∀ v ∈ (WindowedDisplay.init "T" ["A", "A"]).values, v = DISPLAY_INIT) :=
  ⟨by decide, init_duplicate_fields_succeeds "T" ["A", "A"] (by decide)⟩

/-- C5 counterexample: after only two iterations of the `while True` loop in
`check_updates`, the task has already issued two `connect` calls (and two
`subscribe` calls), refuting the claim that it opens exactly one broker
connection, subscribes once, and then idles. -/
theorem checkUpdates_two_connects :
    (checkUpdatesTrace 2).count
        (BrokerEvent.connect "localhost" 1883 300 "car_park_sensor") = 2 ∧
    (checkUpdatesTrace 2).countP isConnectEvent ≠ 1 := by
  decide

/-- C5 (amended): every iteration of the unbounded `while True` loop of
`check_updates` opens a fresh broker connection with the fixed constants
(host `localhost`, port 1883, keep-alive 300, client id `car_park_sensor`)
and subscribes to the fixed topic `car_park/data`; after `n` iterations the
task has emitted exactly `n` connects, `n` subscribes and nothing else — in
particular it has never called the display's update — and the
message-received callback performs no work. -/
theorem checkUpdates_reconnect_loop :
    (∀ n : Nat,
      (checkUpdatesTrace n).length = 2 * n ∧
      (checkUpdatesTrace n).count
          (BrokerEvent.connect "localhost" 1883 300 "car_park_sensor") = n ∧
      (checkUpdatesTrace n).count (BrokerEvent.subscr "car_park/data") = n ∧
      (checkUpdatesTrace n).countP isUpdateDisplayEvent = 0) ∧
    ∀ (m : String) (d : WindowedDisplay), onMessageCallback m d = d := by
  refine ⟨?_, fun m d => rfl⟩
  intro n
  induction n with
  | zero => decide
  | succ n ih =>
    obtain ⟨h1, h2, h3, h4⟩ := ih
    have hl : checkUpdatesIteration.length = 2 := by decide
    have hc : checkUpdatesIteration.count
        (BrokerEvent.connect "localhost" 1883 300 "car_park_sensor") = 1 := by decide
    have hs : checkUpdatesIteration.count (BrokerEvent.subscr "car_park/data") = 1 := by decide
    have hu : checkUpdatesIteration.countP isUpdateDisplayEvent = 0 := by decide
    refine ⟨?_, ?_, ?_, ?_⟩
    · rw [checkUpdatesTrace, List.length_append, hl, h1]
      omega
    · rw [checkUpdatesTrace, List.count_append, hc, h2]
      omega
    · rw [checkUpdatesTrace, List.count_append, hs, h3]
      omega
    · rw [checkUpdatesTrace, List.countP_append, hu, h4]

/-- C6: `update` changes only the value widgets — the row labels (field
names and their order) and the window title are untouched, and the number of
rows is preserved; holds for every payload, complete or not. -/
theorem update_preserves_fields (title : String) (fields : List String)
    (payload : List (String × String)) :
    ((WindowedDisplay.init title fields).update payload).1.labels =
        (WindowedDisplay.init title fields).labels ∧
    ((WindowedDisplay.init title fields).update payload).1.title =
        (WindowedDisplay.init title fields).title ∧
    ((WindowedDisplay.init title fields).update payload).1.values.length =
        (WindowedDisplay.init title fields).values.length := by
  refine ⟨rfl, rfl, ?_⟩
  exact updateLoop_length payload (WindowedDisplay.init title fields).labels
    (WindowedDisplay.init title fields).values (by simp [WindowedDisplay.init])

/-- C7: `update` is idempotent — applying it a second time with the same
payload reproduces exactly the state (and error outcome) of the first
application; holds for every display and every payload, in particular for
complete payloads. -/
theorem update_idempotent (d : WindowedDisplay) (payload : List (String × String)) :
    ((d.update payload).1).update payload = d.update payload := by
  have h := updateLoop_idem payload d.labels d.values
  simp only [WindowedDisplay.update]
  rw [h]

/-- C8: the module bootstrap constructs exactly one display, for the fixed
carpark name `Moondalup` with the fixed ordered field list, then starts the
daemon updater thread, and finally blocks in the render loop. -/
theorem bootstrap_trace_spec :
    bootstrapTrace =
      [BootEvent.constructDisplay "Moondalup" ["Available bays", "Temperature", "At"],
       BootEvent.startDaemonThread, BootEvent.showWindow] ∧
    bootstrapTrace.countP isConstructEvent = 1 ∧
    carParkFields = ["Available bays", "Temperature", "At"] := by
  decide

/-- C10: `update` recovers a field's name by stripping every trailing `':'`
from the rendered label text, so for the display with the single field
`Price:` (whose label text is `Price::`), an update whose payload holds
exactly the field name `Price:` as key raises `KeyError` (looking up
`Price`) and leaves the placeholder in place. -/
theorem update_sep_field_name_keyerror :
    ((WindowedDisplay.init "T" ["Price:"]).update [("Price:", "5")]).2 = true ∧
    ((WindowedDisplay.init "T" ["Price:"]).update [("Price:", "5")]).1.values = [DISPLAY_INIT] ∧
    rstripSep ("Price:" ++ String.mk [SEP]) = "Price" := by
  decide

/-- C1 counterexample: the display with the single (unique) field name `At:`
and the payload holding exactly that field name as key.  The claim says the
displayed value after `update` is the payload's value `x`; in the code the
lookup key is the label text `At::` stripped of all trailing separators,
i.e. `At`, which is absent, so `update` raises `KeyError` and the placeholder
stays displayed. -/
theorem update_complete_claim_counterexample :
    (["At:"] : List String).Nodup ∧
    dictLookup [("At:", "x")] "At:" = some "x" ∧
    ((WindowedDisplay.init "T" ["At:"]).update [("At:", "x")]).2 = true ∧
    ((WindowedDisplay.init "T" ["At:"]).update [("At:", "x")]).1.values = [DISPLAY_INIT] ∧
    DISPLAY_INIT ≠ "x" := by
  decide

/-- C1 (amended): for every display constructed with unique field names none
of which ends with the separator `':'`, and every payload containing exactly
the field names as keys, `update` succeeds (reaching the repaint) and every
field then displays the payload's value for that field; moreover any
reordering of the payload's entries produces the identical result, so key
iteration order is irrelevant. -/
theorem update_complete_payload_correct (title : String) (fields : List String)
    (payload payload' : List (String × String))
    (_hnodup : fields.Nodup)
    (hsep : ∀ f ∈ fields, endsWithSep f = false)
    (hkeysnodup : (payloadKeys payload).Nodup)
    (hcover : ∀ f ∈ fields, f ∈ payloadKeys payload)
    (_hexact : ∀ k ∈ payloadKeys payload, k ∈ fields)
    (hperm : payload'.Perm payload) :
    ((WindowedDisplay.init title fields).update payload).2 = false ∧
    (∀ i (h : i < fields.length),
      ((WindowedDisplay.init title fields).update payload).1.values[i]? =
        dictLookup payload (fields.get ⟨i, h⟩)) ∧
    (WindowedDisplay.init title fields).update payload' =
      (WindowedDisplay.init title fields).update payload := by
  have hlen : (WindowedDisplay.init title fields).labels.length =
      (WindowedDisplay.init title fields).values.length := by
    simp [WindowedDisplay.init]
  have hfound : ∀ l ∈ (WindowedDisplay.init title fields).labels,
      dictLookup payload ( rstripSep l) ≠ none := by
    intro l hl
    obtain ⟨f, hf, rfl⟩ := List.mem_map.mp hl
    rw [rstripSep_append_sep f (hsep f hf)]
    exact (dictLookup_ne_none payload f).mpr (hcover f hf)
  have hloop := updateLoop_all_found payload (WindowedDisplay.init title fields).labels
      (WindowedDisplay.init title fields).values hlen hfound
  have hvals : ((WindowedDisplay.init title fields).update payload).1.values =
      fields.map (fun f => (dictLookup payload f).getD "") := by
    show (updateLoop payload (WindowedDisplay.init title fields).labels
        (WindowedDisplay.init title fields).values).1 = _
    rw [hloop]
    show ((fields.map (fun f => f ++ String.mk [SEP])).map
        (fun l => (dictLookup payload ( rstripSep l)).getD "")) = _
    rw [List.map_map]
    exact List.map_congr_left (fun f hf => by
      simp only [Function.comp_apply]
      rw [rstripSep_append_sep f (hsep f hf)])
  refine ⟨?_, ?_, ?_⟩
  · show (updateLoop payload _ _).2 = false
    rw [hloop]
  · intro i h
    rw [hvals, List.getElem?_map, List.getElem?_eq_getElem h]
    obtain ⟨w, hw⟩ := Option.ne_none_iff_exists'.mp
      ((dictLookup_ne_none payload (fields.get ⟨i, h⟩)).mpr
        (hcover _ (fields.get_mem i h)))
    simp only [List.get_eq_getElem] at hw
    simp [hw]
  · have hcongr := updateLoop_congr payload' payload
      (fun k => dictLookup_perm k hperm hkeysnodup)
    simp only [WindowedDisplay.update]
    rw [hcongr]

/-- Witness for C1 (amended): scenario B of the spec, with the payload given
in reversed key order. -/
theorem update_complete_payload_correct_witness :
    (∀ f ∈ carParkFields,
      f ∈ payloadKeys [("At", "14:03:10"), ("Temperature", "21℃"), ("Available bays", "042")]) ∧
    (((WindowedDisplay.init "Moondalup" carParkFields).update
        [("At", "14:03:10"), ("Temperature", "21℃"), ("Available bays", "042")]).2 = false ∧
     (∀ i (h : i < carParkFields.length),
       ((WindowedDisplay.init "Moondalup" carParkFields).update
           [("At", "14:03:10"), ("Temperature", "21℃"), ("Available bays", "042")]).1.values[i]? =
         dictLookup [("At", "14:03:10"), ("Temperature", "21℃"), ("Available bays", "042")]
           (carParkFields.get ⟨i, h⟩)) ∧
     (WindowedDisplay.init "Moondalup" carParkFields).update
         [("Available bays", "042"), ("At", "14:03:10"), ("Temperature", "21℃")] =
       (WindowedDisplay.init "Moondalup" carParkFields).update
         [("At", "14:03:10"), ("Temperature", "21℃"), ("Available bays", "042")]) :=
  ⟨by decide,
   update_complete_payload_correct "Moondalup" carParkFields
     [("At", "14:03:10"), ("Temperature", "21℃"), ("Available bays", "042")]
     [("Available bays", "042"), ("At", "14:03:10"), ("Temperature", "21℃")]
     (by decide) (by decide) (by decide) (by decide) (by decide) (by decide)⟩

/-- C2 counterexample: scenario C of the spec.  With the bootstrap fields
and the payload `{"Available bays": "042"}` (missing two keys), `update`
does fail with a lookup error, but it first overwrites the first row's value
with `042`: the displayed state after the failed call differs from the state
before it, refuting the no-partial-mutation part of the claim. -/
theorem update_incomplete_alters_values :
    ((WindowedDisplay.init "Moondalup" carParkFields).update
        [("Available bays", "042")]).2 = true ∧
    ((WindowedDisplay.init "Moondalup" carParkFields).update
        [("Available bays", "042")]).1.values = ["042", DISPLAY_INIT, DISPLAY_INIT] ∧
    ((WindowedDisplay.init "Moondalup" carParkFields).update
        [("Available bays", "042")]).1.values ≠
      (WindowedDisplay.init "Moondalup" carParkFields).values := by
  decide

/-- C2 (amended): `update` is not atomic.  For every display state (labels
and values in step, whatever the values currently show) and every payload
from which some row's lookup key is absent — the lookup key of a row being
its label text stripped of all trailing `':'` characters — the call fails
with a lookup error; every row strictly before the first row with a missing
key is set to the payload's value at its lookup key, and that row together
with all later rows keeps its previously displayed value. -/
theorem update_incomplete_partial_mutation (d : WindowedDisplay)
    (preL : List String) (badL : String) (restL : List String)
    (payload : List (String × String))
    (hsplit : d.labels = preL ++ badL :: restL)
    (hwf : d.labels.length = d.values.length)
    (hpre : ∀ l ∈ preL, dictLookup payload ( rstripSep l) ≠ none)
    (hbad : dictLookup payload ( rstripSep badL) = none) :
    (d.update payload).2 = true ∧
    (d.update payload).1.values =
      preL.map (fun l => (dictLookup payload ( rstripSep l)).getD "") ++
        d.values.drop preL.length := by
  have hlen : preL.length < d.values.length := by
    rw [← hwf, hsplit]
    simp only [List.length_append, List.length_cons]
    omega
  have hloop := updateLoop_partial payload badL restL hbad preL d.values hlen hpre
  constructor
  · show (updateLoop payload d.labels d.values).2 = true
    rw [hsplit, hloop]
  · show (updateLoop payload d.labels d.values).1 = _
    rw [hsplit, hloop]

/-- Witness for C2 (amended): a display that already shows live (non
placeholder) values — the state reached after a successful update of the
bootstrap display — receives scenario C's payload `{"Available bays": "042"}`.
Row 0's key `Available bays` is found and the row is set to `042`; row 1's
key `Temperature` is missing, the call fails there, and rows 1 and 2 keep
the values they displayed before the call. -/
theorem update_incomplete_partial_mutation_witness :
    dictLookup [("Available bays", "042")] ( rstripSep "Temperature:") = none ∧
    (({ title := "Moondalup: Parking",
        labels := ["Available bays:", "Temperature:", "At:"],
        values := ["007", "33℃", "12:00:00"] : WindowedDisplay }.update
        [("Available bays", "042")]).2 = true ∧
     ({ title := "Moondalup: Parking",
        labels := ["Available bays:", "Temperature:", "At:"],
        values := ["007", "33℃", "12:00:00"] : WindowedDisplay }.update
        [("Available bays", "042")]).1.values =
      (["Available bays:"] : List String).map
          (fun l => (dictLookup [("Available bays", "042")] ( rstripSep l)).getD "") ++
        (["007", "33℃", "12:00:00"] : List String).drop
          (["Available bays:"] : List String).length) :=
  ⟨by decide,
   update_incomplete_partial_mutation
     { title := "Moondalup: Parking",
       labels := ["Available bays:", "Temperature:", "At:"],
       values := ["007", "33℃", "12:00:00"] }
     ["Available bays:"] "Temperature:" ["At:"] [("Available bays", "042")]
     (by decide) (by decide) (by decide) (by decide)⟩

end CarPark
